import Mathlib

/-!
Verification development for the email-secretary backend
(`backend/app`): agents (analyzer, supervisor), services
(database cache, cache/sync, filtering, learning).

Python strings are modelled as `List Char`; `str.lower()` as a
character-wise `Char.toLower` map; the substring operator `in` as
`containsSub`; `datetime` values as `Nat` time stamps.  LLM-gateway
calls are modelled by explicit outcome parameters (the calls are
external I/O); everything the repository computes itself is embedded
directly from the source.
-/

/-- Python `str`, modelled as a list of characters. -/
abbrev Str := List Char

/-- Shorthand turning a Lean string literal into the `Str` model. -/
def str (s : String) : Str := s.data

/-- `str.lower()` (character-wise lowering). -/
def lower (s : Str) : Str := s.map Char.toLower

/-- Whether `needle` occurs at the start of `hay`. -/
def isPrefixChars : Str → Str → Bool
  | [], _ => true
  | _ :: _, [] => false
  | a :: as, b :: bs => a == b && isPrefixChars as bs

/-- Python's substring test `needle in hay`. -/
def containsSub (needle : Str) : Str → Bool
  | [] => needle.isEmpty
  | c :: rest => isPrefixChars needle (c :: rest) || containsSub needle rest

/-- Two-sided strip of the characters satisfying `p`
(Python `str.strip()` / `str.strip('"')`). -/
def stripChars (p : Char → Bool) (s : Str) : Str :=
  ((s.dropWhile p).reverse.dropWhile p).reverse

/-- Python-dict lookup on an insertion-ordered association list
(assignment overwrites, so the last binding for a key is its value). -/
def dictGet {V : Type} (l : List (Str × V)) (k : Str) : Option V :=
  ((l.filter (fun p => decide (p.1 = k))).getLast?).map (fun p => p.2)

/- ===== schemas/email.py ===== -/

/-- `Priority` enum (`schemas/email.py`). -/
inductive Priority where
  | urgent
  | normal
  | fyi
deriving DecidableEq

/-- `Category` enum (`schemas/email.py`). -/
inductive Category where
  | reply_needed
  | confirm_only
  | info
deriving DecidableEq

/-- The string value of a `Priority` enum member. -/
def Priority.toStr : Priority → Str
  | .urgent => str "urgent"
  | .normal => str "normal"
  | .fyi => str "fyi"

/-- The string value of a `Category` enum member. -/
def Category.toStr : Category → Str
  | .reply_needed => str "reply_needed"
  | .confirm_only => str "confirm_only"
  | .info => str "info"

/-- `Priority(s)` coercion from a raw string; `none` models the
`ValueError` raised on a value outside the enum. -/
def priorityOfStr (s : Str) : Option Priority :=
  if s = str "urgent" then some .urgent
  else if s = str "normal" then some .normal
  else if s = str "fyi" then some .fyi
  else none

/-- `Category(s)` coercion from a raw string; `none` models the
`ValueError` raised on a value outside the enum. -/
def categoryOfStr (s : Str) : Option Category :=
  if s = str "reply_needed" then some .reply_needed
  else if s = str "confirm_only" then some .confirm_only
  else if s = str "info" then some .info
  else none

/-- `EmailContent` (`schemas/email.py`).  Attachment dicts are
abstracted to opaque strings; dates to `Nat` time stamps. -/
structure EmailContent where
  id : Str
  from_email : Str
  to_email : List Str
  cc_email : List Str
  subject : Str
  body : Str
  html_body : Option Str
  date : Nat
  attachments : List Str
deriving DecidableEq

/-- `EmailSummary` (`schemas/email.py`). -/
structure EmailSummary where
  id : Str
  from_email : Str
  from_name : Str
  subject : Str
  date : Nat
  summary : Str
  priority : Priority
  category : Category
  has_attachment : Bool
  important_entities : List Str
deriving DecidableEq

/- ===== agents/analyzer.py ===== -/

/-- One token of the fixed regex patterns used by
`AnalyzerAgent._regex_entity_extraction`: a literal character, or a
digit run of `lo` to `hi` digits (`hi = none` meaning unbounded). -/
inductive PatTok where
  | lit (c : Char)
  | digits (lo : Nat) (hi : Option Nat)
deriving DecidableEq

/-- The candidate digit counts `[maxN, maxN-1, ..., lo]` tried by a
greedy regex engine, longest first (empty when `maxN < lo`). -/
def countsDown (maxN lo : Nat) : List Nat :=
  (List.range (maxN + 1 - lo)).map (fun i => maxN - i)

/-- All ways a token list can match a prefix of `s`, in greedy
(backtracking) priority order; each result is the matched text and the
remaining suffix. -/
def matchToks : List PatTok → Str → List (Str × Str)
  | [], s => [([], s)]
  | .lit c :: ps, s =>
    match s with
    | [] => []
    | x :: xs =>
      if x = c then (matchToks ps xs).map (fun pr => (c :: pr.1, pr.2)) else []
  | .digits lo hi :: ps, s =>
    let run := s.takeWhile Char.isDigit
    let maxN := match hi with
      | some h => min h run.length
      | none => run.length
    (countsDown maxN lo).flatMap (fun n =>
      (matchToks ps (s.drop n)).map (fun pr => (s.take n ++ pr.1, pr.2)))

/-- `re.findall` over one pattern: non-overlapping matches scanning
left to right, preferring the greedy match at each position.  `fuel`
bounds the recursion and is instantiated with the text length. -/
def findAllAux (p : List PatTok) : Nat → Str → List Str
  | 0, _ => []
  | _, [] => []
  | fuel + 1, c :: rest =>
    match (matchToks p (c :: rest)).head? with
    | some (m, remaining) =>
      if m.isEmpty then findAllAux p fuel rest
      else m :: findAllAux p fuel remaining
    | none => findAllAux p fuel rest

/-- `re.findall(pattern, text)` for the fixed entity patterns. -/
def findAll (p : List PatTok) (text : Str) : List Str :=
  findAllAux p text.length text

/-- The date regexes of `_regex_entity_extraction`. -/
def datePatterns : List (List PatTok) :=
  [[.digits 4 (some 4), .lit '年', .digits 1 (some 2), .lit '月',
    .digits 1 (some 2), .lit '日'],
   [.digits 1 (some 2), .lit '/', .digits 1 (some 2)],
   [.digits 1 (some 2), .lit '月', .digits 1 (some 2), .lit '日']]

/-- The currency-amount regexes of `_regex_entity_extraction`. -/
def amountPatterns : List (List PatTok) :=
  [[.digits 1 none, .lit '万', .lit '円'],
   [.digits 1 none, .lit '円'],
   [.lit '¥', .digits 1 none],
   [.digits 1 none, .lit ',', .digits 1 none, .lit '円']]

/-- `AnalyzerAgent._regex_entity_extraction`: regex date and amount
matches, tagged and capped at 10 entities. -/
def regexEntityExtraction (text : Str) : List Str :=
  let dateEntities := datePatterns.flatMap (fun p =>
    (findAll p text).map (fun m => str "日付: " ++ m))
  let amountEntities := amountPatterns.flatMap (fun p =>
    (findAll p text).map (fun m => str "金額: " ++ m))
  (dateEntities ++ amountEntities).take 10

/-- `AnalyzerAgent._extract_name_from_email`. -/
def extractNameFromEmail (addr : Str) : Str :=
  if addr.contains '<' && addr.contains '>' then
    stripChars (fun c => c = '"')
      (stripChars (fun c => c.isWhitespace) (addr.takeWhile (fun c => c != '<')))
  else
    addr.takeWhile (fun c => c != '@')

/-- Urgency keywords of `_create_fallback_analysis`. -/
def urgencyKeywords : List Str := [str "緊急", str "urgent", str "asap", str "至急"]

/-- FYI keywords of `_create_fallback_analysis`. -/
def fyiKeywords : List Str := [str "fyi", str "参考", str "情報"]

/-- Reply/confirmation keywords of `_create_fallback_analysis`. -/
def replyKeywords : List Str := [str "返信", str "reply", str "回答", str "確認"]

/-- Informational keywords of `_create_fallback_analysis`. -/
def infoKeywords : List Str := [str "情報", str "fyi", str "参考"]

/-- Fallback priority: `urgent` on an urgency keyword in the lowered
subject, else `fyi` on an FYI keyword, else `normal`. -/
def fallbackPriority (subject : Str) : Priority :=
  if urgencyKeywords.any (fun k => containsSub k (lower subject)) then .urgent
  else if fyiKeywords.any (fun k => containsSub k (lower subject)) then .fyi
  else .normal

/-- Fallback category: `reply_needed` on a reply keyword in the
lowered subject, else `info` on an informational keyword, else
`confirm_only`. -/
def fallbackCategory (subject : Str) : Category :=
  if replyKeywords.any (fun k => containsSub k (lower subject)) then .reply_needed
  else if infoKeywords.any (fun k => containsSub k (lower subject)) then .info
  else .confirm_only

/-- Body truncation used by the fallback summary:
`body[:100] + "..."` when longer than 100 characters. -/
def truncateSummary (body : Str) : Str :=
  if 100 < body.length then body.take 100 ++ str "..." else body

/-- The parsed JSON analysis the AI path reads out of the LLM
response (fields via `.get` with the source's defaults). -/
structure ParsedAnalysis where
  summary : Str
  priority : Str
  category : Str
  important_entities : List Str
deriving DecidableEq

/-- The `analysis_details` part of an analyzer result: the parsed
model output on the AI path, or the dict built by
`_create_fallback_analysis`. -/
inductive AnalysisDetails where
  | fromModel (p : ParsedAnalysis)
  | fallbackDetails (summary : Str) (priority : Str) (category : Str)
      (important_entities : List Str) (confidencePercent : Nat)
deriving DecidableEq

/-- The dict returned by `AnalyzerAgent.analyze_email` /
`_create_fallback_analysis` (confidence scores are scaled to percent
to stay in `Nat`). -/
structure AnalysisOutput where
  success : Bool
  email_summary : EmailSummary
  analysis_details : AnalysisDetails
  ai_analyzed : Bool
deriving DecidableEq

/-- `AnalyzerAgent._create_fallback_analysis`. -/
def createFallbackAnalysis (email : EmailContent) : AnalysisOutput :=
  let priority := fallbackPriority email.subject
  let category := fallbackCategory email.subject
  let summary := truncateSummary email.body
  { success := true
    email_summary :=
      { id := email.id
        from_email := email.from_email
        from_name := extractNameFromEmail email.from_email
        subject := email.subject
        date := email.date
        summary := summary
        priority := priority
        category := category
        has_attachment := decide (0 < email.attachments.length)
        important_entities := regexEntityExtraction email.body }
    analysis_details :=
      .fallbackDetails summary priority.toStr category.toStr
        (regexEntityExtraction email.body) 50
    ai_analyzed := false }

/-- Outcome of the analyzer's LLM interaction, abstracting the
external call: the gateway is not configured (`ai_enabled` false), the
call raised, `json.loads` raised, or a JSON object was parsed. -/
inductive LLMAnalysis where
  | unavailable
  | callError
  | badJson
  | parsed (p : ParsedAnalysis)
deriving DecidableEq

/-- `AnalyzerAgent.analyze_email`: fallback when AI is disabled; on
the AI path any raised error (call failure, JSON parse failure, or an
enum coercion failure on `priority`/`category`) is caught and routed
to `_create_fallback_analysis`. -/
def analyzeEmail (llm : LLMAnalysis) (email : EmailContent) : AnalysisOutput :=
  match llm with
  | .unavailable => createFallbackAnalysis email
  | .callError => createFallbackAnalysis email
  | .badJson => createFallbackAnalysis email
  | .parsed p =>
    match priorityOfStr p.priority, categoryOfStr p.category with
    | some pr, some cat =>
      { success := true
        email_summary :=
          { id := email.id
            from_email := email.from_email
            from_name := extractNameFromEmail email.from_email
            subject := email.subject
            date := email.date
            summary := p.summary
            priority := pr
            category := cat
            has_attachment := decide (0 < email.attachments.length)
            important_entities := p.important_entities }
        analysis_details := .fromModel p
        ai_analyzed := true }
    | _, _ => createFallbackAnalysis email

/-- The concrete email of the spec's fallback example: subject
`至急: ご確認ください`, LLM unavailable. -/
def exampleUrgentEmail : EmailContent :=
  { id := str "e8", from_email := str "boss@example.com", to_email := [],
    cc_email := [], subject := str "至急: ご確認ください", body := str "",
    html_body := none, date := 0, attachments := [] }

/- ===== agents/supervisor.py ===== -/

/-- The routing dict produced by `SupervisorAgent.route_email`. -/
structure RoutingDecision where
  agents_to_use : List Str
  priority : Str
  reasoning : Str
  parallel_execution : Bool
deriving DecidableEq

/-- Outcome of one LLM-gateway invocation (`llm.ainvoke`): the call
raised, or returned a response of shape `α`. -/
inductive LLMCall (α : Type) where
  | failure (msg : Str)
  | success (resp : α)

/-- The supervisor's LLM response as seen by `route_email` after
`json.loads`: the load raised, or a routing dict was parsed. -/
inductive RouteResponse where
  | unparsable
  | decision (d : RoutingDecision)

/-- The safe default routing decision of `route_email`'s `except`
branch. -/
def defaultRouting : RoutingDecision :=
  { agents_to_use := [str "analyzer"]
    priority := str "normal"
    reasoning := str "デフォルトルーティング"
    parallel_execution := false }

/-- `SupervisorAgent.route_email`.  The `llm.ainvoke` call sits
OUTSIDE the `try` block, so a raised call error propagates
(`Except.error`); only a `json.loads` failure is caught and mapped to
`defaultRouting`. -/
def routeEmail (llm : LLMCall RouteResponse) (_email : EmailContent) :
    Except Str RoutingDecision :=
  match llm with
  | .failure msg => .error msg
  | .success .unparsable => .ok defaultRouting
  | .success (.decision d) => .ok d

/-- A plain concrete email used by closed evaluations. -/
def plainEmail : EmailContent :=
  { id := str "m1", from_email := str "alice@example.com", to_email := [str "bob@example.com"],
    cc_email := [], subject := str "meeting", body := str "see you",
    html_body := none, date := 5, attachments := [] }

/-- The agent names registered in `coordinate_agents`'s
`agent_instances` dict. -/
def validAgents : List Str := [str "analyzer", str "responder", str "manager"]

/-- One value of the `results` dict of `coordinate_agents`: either the
`{"success": False, "error": ...}` entry recorded for a raised task,
or the result dict the agent returned. -/
inductive REntry (V : Type) where
  | failureEntry (error : Str)
  | resultEntry (v : V)
deriving DecidableEq

/-- How a gathered task outcome is recorded in the results dict. -/
def toEntry {V : Type} : Except Str V → REntry V
  | .error m => .failureEntry m
  | .ok v => .resultEntry v

/-- The final-recommendation dict of
`SupervisorAgent._generate_final_recommendation`. -/
structure FinalRecommendation where
  recommended_actions : List Str
  priority_level : Str
  summary : Str
  next_steps : Str
deriving DecidableEq

/-- The default recommendation returned when the summary response
fails to parse. -/
def defaultRecommendation : FinalRecommendation :=
  { recommended_actions := [str "review"]
    priority_level := str "normal"
    summary := str "メールの処理が完了しました。"
    next_steps := str "内容を確認してください。" }

/-- `_generate_final_recommendation`: the `ainvoke` call is outside
the `try`, so a call failure propagates; a parse failure yields the
default dict. -/
def generateFinalRecommendation (llm : LLMCall (Option FinalRecommendation)) :
    Except Str FinalRecommendation :=
  match llm with
  | .failure m => .error m
  | .success none => .ok defaultRecommendation
  | .success (some r) => .ok r

/-- The task list built in the parallel branch: one invocation per
selected agent name that is registered in `agent_instances`. -/
def gatherTasks {V : Type} (invoke : Str → Except Str V) (names : List Str) :
    List (Except Str V) :=
  (names.filter (fun n => decide (n ∈ validAgents))).map invoke

/-- The `for i, agent_name in enumerate(agents_to_use)` loop recording
`agent_results[i]` under `agent_name`; `none` models the `IndexError`
raised when `i` is past the end of the gathered task list. -/
def buildLoop {V : Type} (tasks : List (Except Str V)) :
    List (Nat × Str) → Option (List (Str × REntry V))
  | [] => some []
  | (i, n) :: rest =>
    match tasks.get? i with
    | none => none
    | some r => (buildLoop tasks rest).map (fun l => (n, toEntry r) :: l)

/-- The parallel branch of `coordinate_agents`: gather all tasks with
`return_exceptions=True`, then record each outcome under the
positionally corresponding agent name. -/
def buildParallelResults {V : Type} (invoke : Str → Except Str V)
    (names : List Str) : Option (List (Str × REntry V)) :=
  buildLoop (gatherTasks invoke names) names.enum

/-- The sequential branch of `coordinate_agents`: invalid names are
skipped, each invocation's exception is caught per agent. -/
def runSequential {V : Type} (invoke : Str → Except Str V) :
    List Str → List (Str × REntry V)
  | [] => []
  | n :: ns =>
    if n ∈ validAgents then (n, toEntry (invoke n)) :: runSequential invoke ns
    else runSequential invoke ns

/-- The aggregate dict returned by `coordinate_agents`. -/
structure Aggregate (V : Type) where
  routing_decision : RoutingDecision
  agent_results : List (Str × REntry V)
  final_recommendation : FinalRecommendation

/-- `SupervisorAgent.coordinate_agents`, with agent invocations
abstracted as `invoke` (the outcome of each agent coroutine on the
processed email) and the summary LLM call as `recLLM`. -/
def coordinateAgents {V : Type} (invoke : Str → Except Str V)
    (recLLM : LLMCall (Option FinalRecommendation))
    (routing : RoutingDecision) : Except Str (Aggregate V) :=
  if routing.parallel_execution then
    match buildParallelResults invoke routing.agents_to_use with
    | none => .error (str "IndexError")
    | some results =>
      match generateFinalRecommendation recLLM with
      | .error m => .error m
      | .ok fr => .ok ⟨routing, results, fr⟩
  else
    match generateFinalRecommendation recLLM with
    | .error m => .error m
    | .ok fr => .ok ⟨routing, runSequential invoke routing.agents_to_use, fr⟩

/-- Concrete invocation map for the C3 witness: the analyzer raises,
the responder returns a result. -/
def wInvoke : Str → Except Str Nat :=
  fun n => if n = str "analyzer" then .error (str "boom") else .ok 7

/-- Concrete routing decision for the C3 witness. -/
def wRouting : RoutingDecision :=
  { agents_to_use := [str "analyzer", str "responder"]
    priority := str "normal"
    reasoning := str "test"
    parallel_execution := true }

/- ===== services/filtering_service.py ===== -/

/-- The structured filter configuration stored for one rule
(`filter_config` JSON in the rule metadata), together with the rule's
`active` flag. -/
structure FilterConfig where
  filter_type : Str
  patterns : List Str
  action : Str
  active : Bool
deriving DecidableEq

/-- `FilteringService._email_matches_filter`: case-insensitive
substring containment of any pattern in the field selected by the
filter type (`sender`, `subject`, `content`, or the space-joined
concatenation of all three for `combined`). -/
def emailMatchesFilter (email : EmailContent) (cfg : FilterConfig) : Bool :=
  if cfg.filter_type = str "sender" then
    cfg.patterns.any (fun p => containsSub (lower p) (lower email.from_email))
  else if cfg.filter_type = str "subject" then
    cfg.patterns.any (fun p => containsSub (lower p) (lower email.subject))
  else if cfg.filter_type = str "content" then
    cfg.patterns.any (fun p => containsSub (lower p) (lower email.body))
  else if cfg.filter_type = str "combined" then
    cfg.patterns.any (fun p => containsSub (lower p)
      (lower (email.from_email ++ str " " ++ email.subject ++ str " " ++ email.body)))
  else false

/-- The rule loop of `FilteringService.should_filter_email` over the
active rules in stored order: the first matching rule decides
(`exclude` means filtered out); no match means not filtered. -/
def shouldFilterActive : List FilterConfig → EmailContent → Bool
  | [], _ => false
  | c :: cs, e =>
    if emailMatchesFilter e c then decide (c.action = str "exclude")
    else shouldFilterActive cs e

/-- `FilteringService.should_filter_email`: only rules with
`active = True` are fetched, in stored order. -/
def should_filter_email (rules : List FilterConfig) (e : EmailContent) : Bool :=
  shouldFilterActive (rules.filter (fun c => c.active)) e

/-- `EmailCacheService._filter_emails`: keep the emails the filtering
service does not filter out. -/
def filterEmails (rules : List FilterConfig) (emails : List EmailContent) :
    List EmailContent :=
  emails.filter (fun e => !(should_filter_email rules e))

/- ===== models/database.py & services/database_service.py ===== -/

/-- One `EmailCache` row.  `analysis_result` holds the analyzer output
dict (stored as JSON in the source and parsed back on read). -/
structure EmailCacheRecord where
  id : Str
  from_email : Str
  from_name : Str
  subject : Str
  body : Str
  date : Nat
  processed : Bool
  analysis_result : Option AnalysisOutput
deriving DecidableEq

/-- `db.query(EmailCache).filter(EmailCache.id == id).first()`. -/
def findCachedById (cache : List EmailCacheRecord) (emailId : Str) :
    Option EmailCacheRecord :=
  cache.find? (fun r => decide (r.id = emailId))

/-- The fresh row built by `DatabaseService.cache_email` when no row
with the email's id exists. -/
def newCacheRecord (email : EmailContent) (analysis : Option AnalysisOutput) :
    EmailCacheRecord :=
  { id := email.id
    from_email := email.from_email
    from_name := if email.from_email.contains '@'
      then email.from_email.takeWhile (fun c => c != '@')
      else email.from_email
    subject := email.subject
    body := email.body
    date := email.date
    processed := analysis.isSome
    analysis_result := analysis }

/-- `DatabaseService.cache_email`: return the existing row unchanged
when one with this id exists, else insert a fresh row.  Returns the
(returned row, resulting table). -/
def cacheEmail (cache : List EmailCacheRecord) (email : EmailContent)
    (analysis : Option AnalysisOutput) :
    EmailCacheRecord × List EmailCacheRecord :=
  match findCachedById cache email.id with
  | some existing => (existing, cache)
  | none => (newCacheRecord email analysis, cache ++ [newCacheRecord email analysis])

/-- Ordering used by `order_by(EmailCache.date.desc())`. -/
def recDateGe (a b : EmailCacheRecord) : Prop := b.date ≤ a.date

instance : DecidableRel recDateGe := fun a b => Nat.decLe b.date a.date

instance : IsTotal EmailCacheRecord recDateGe :=
  ⟨fun a b => Nat.le_total b.date a.date⟩

instance : IsTrans EmailCacheRecord recDateGe :=
  ⟨fun _ _ _ hab hbc => Nat.le_trans hbc hab⟩

/-- `DatabaseService.get_cached_emails`: rows within the
`days_back` window, newest first, limited to `limit`. -/
def get_cached_emails (cache : List EmailCacheRecord)
    (limit daysBack now : Nat) : List EmailCacheRecord :=
  ((cache.filter (fun r => decide (now - daysBack ≤ r.date))).insertionSort
    recDateGe).take limit

/-- `DatabaseService.get_latest_email_date`: date of the newest row,
`none` on an empty table. -/
def get_latest_email_date (cache : List EmailCacheRecord) : Option Nat :=
  ((cache.insertionSort recDateGe).head?).map (fun r => r.date)

/-- `DatabaseService.get_email_content_by_id`: rebuild an
`EmailContent` from a cached row; recipients, HTML body and
attachments are not stored in the cache. -/
def get_email_content_by_id (cache : List EmailCacheRecord) (emailId : Str) :
    Option EmailContent :=
  (findCachedById cache emailId).map (fun r =>
    { id := r.id
      from_email := r.from_email
      to_email := []
      cc_email := []
      subject := r.subject
      body := r.body
      html_body := none
      date := r.date
      attachments := [] })

/-- Number of rows carrying a given id. -/
def countById (cache : List EmailCacheRecord) (emailId : Str) : Nat :=
  (cache.filter (fun r => decide (r.id = emailId))).length

/-- Active excluding rule matching on sender, first in store order. -/
def wRule1 : FilterConfig :=
  { filter_type := str "sender", patterns := [str "github"],
    action := str "exclude", active := true }

/-- Active including rule that would also match, stored second. -/
def wRule2 : FilterConfig :=
  { filter_type := str "sender", patterns := [str "github"],
    action := str "include", active := true }

/-- Concrete email matched by both witness rules (case-insensitively). -/
def wEmail7 : EmailContent :=
  { id := str "f1", from_email := str "noreply@GitHub.com", to_email := [],
    cc_email := [], subject := str "PR merged", body := str "done",
    html_body := none, date := 9, attachments := [] }

/- ===== services/email_cache_service.py ===== -/

/-- External behaviour the cache/sync service consumes: the current
time, the Gmail listings (per since-date, and the 14-day default
window), the per-email LLM analysis outcome, and the active filter
rule store. -/
structure SyncEnv where
  now : Nat
  serverSince : Nat → List EmailContent
  recentWindow : List EmailContent
  llmFor : EmailContent → LLMAnalysis
  rules : List FilterConfig

/-- `GmailService.get_emails_since_date`: list the server's response
to the since-date query and keep only emails strictly newer than
`sinceDate` (the source re-checks `email_data.date > since_date`). -/
def get_emails_since_date (server : Nat → List EmailContent) (sinceDate : Nat) :
    List EmailContent :=
  (server sinceDate).filter (fun e => decide (sinceDate < e.date))

/-- An external call recorded while `get_recent_emails_cached` runs:
a since-date mail fetch, a full-window mail fetch, or an analyzer run
on one email (the only step that may reach the LLM gateway). -/
inductive ExtCall where
  | mailSince (t : Nat)
  | mailRecentWindow (daysBack : Nat)
  | llmAnalysis (emailId : Str)
deriving DecidableEq

/-- The summary `_convert_cached_to_summaries` builds for a row whose
stored analysis is absent or lacks a usable summary. -/
def recordFallbackSummary (r : EmailCacheRecord) : EmailSummary :=
  { id := r.id
    from_email := r.from_email
    from_name := if r.from_name.isEmpty
      then r.from_email.takeWhile (fun c => c != '@') else r.from_name
    subject := r.subject
    date := r.date
    summary := if 100 < r.body.length then r.body.take 100 ++ str "..." else r.body
    priority := .normal
    category := .confirm_only
    has_attachment := false
    important_entities := [] }

/-- `EmailCacheService._convert_cached_to_summaries`. -/
def convertCachedToSummaries (cached : List EmailCacheRecord) : List EmailSummary :=
  cached.map (fun r =>
    match r.analysis_result with
    | some a =>
      if a.email_summary.summary.isEmpty then recordFallbackSummary r
      else a.email_summary
    | none => recordFallbackSummary r)

/-- The per-new-email loop of `get_recent_emails_cached`: analyze,
cache, record the analyzer run; returns the resulting table and the
recorded external calls.  (The local `processed_summaries` list the
source also builds is dead for the function's return value.) -/
def processNew (env : SyncEnv) :
    List EmailContent → List EmailCacheRecord →
      List EmailCacheRecord × List ExtCall
  | [], cache => (cache, [])
  | e :: rest, cache =>
    ((processNew env rest
        (cacheEmail cache e (some (analyzeEmail (env.llmFor e) e))).2).1,
      ExtCall.llmAnalysis e.id ::
        (processNew env rest
          (cacheEmail cache e (some (analyzeEmail (env.llmFor e) e))).2).2)

/-- The cache-hit test of `get_recent_emails_cached`: unless
`force_refresh`, fetch the cached window and take the fast path when
the list is non-empty (Python truthiness) with at least
`min(limit, 10)` rows. -/
def fastPathCheck (env : SyncEnv) (cache : List EmailCacheRecord)
    (limit : Nat) (force_refresh : Bool) : Option (List EmailCacheRecord) :=
  if force_refresh then none
  else
    if get_cached_emails cache limit 14 env.now = [] then none
    else if min limit 10 ≤ (get_cached_emails cache limit 14 env.now).length then
      some (get_cached_emails cache limit 14 env.now)
    else none

/-- `EmailCacheService.get_recent_emails_cached`: fast path straight
from the cache, else differential sync (since-date fetch when the
cache has a latest date, full 14-day window otherwise), filtering,
per-email analysis and caching, then the reconciled cached window.
Returns (summaries, resulting table, recorded external calls). -/
def get_recent_emails_cached (env : SyncEnv) (cache : List EmailCacheRecord)
    (limit : Nat) (force_refresh : Bool) :
    List EmailSummary × List EmailCacheRecord × List ExtCall :=
  match fastPathCheck env cache limit force_refresh with
  | some cached => (convertCachedToSummaries cached, cache, [])
  | none =>
    match get_latest_email_date cache with
    | some latest =>
      (convertCachedToSummaries
          (get_cached_emails
            (processNew env
              (filterEmails env.rules (get_emails_since_date env.serverSince latest))
              cache).1 limit 14 env.now),
        (processNew env
          (filterEmails env.rules (get_emails_since_date env.serverSince latest))
          cache).1,
        ExtCall.mailSince latest ::
          (processNew env
            (filterEmails env.rules (get_emails_since_date env.serverSince latest))
            cache).2)
    | none =>
      (convertCachedToSummaries
          (get_cached_emails
            (processNew env (filterEmails env.rules env.recentWindow) cache).1
            limit 14 env.now),
        (processNew env (filterEmails env.rules env.recentWindow) cache).1,
        ExtCall.mailRecentWindow 14 ::
          (processNew env (filterEmails env.rules env.recentWindow) cache).2)

/-- `EmailCacheService.get_email_by_id_cached`: cache first, then live
fetch (cached on success). -/
def get_email_by_id_cached (cache : List EmailCacheRecord)
    (live : Str → Option EmailContent) (emailId : Str) :
    Option EmailContent × List EmailCacheRecord :=
  match get_email_content_by_id cache emailId with
  | some c => (some c, cache)
  | none =>
    match live emailId with
    | some e => (some e, (cacheEmail cache e none).2)
    | none => (none, cache)

/-- Concrete environment for closed sync evaluations: empty server
responses, analyzer LLM unavailable, no filter rules. -/
def env0 : SyncEnv :=
  { now := 20
    serverSince := fun _ => []
    recentWindow := []
    llmFor := fun _ => .unavailable
    rules := [] }

/-- A concrete cached row inside `env0`'s 14-day window. -/
def rec0 : EmailCacheRecord :=
  { id := str "r0", from_email := str "a@b.c", from_name := str "a",
    subject := str "s", body := str "b", date := 15, processed := false,
    analysis_result := none }

/-- Concrete email with recipients, an HTML body and an attachment. -/
def attachEmail : EmailContent :=
  { id := str "a1", from_email := str "x@y.z", to_email := [str "someone@y.z"],
    cc_email := [str "cc@y.z"], subject := str "with file",
    body := str "see attachment", html_body := some (str "<p>see attachment</p>"),
    date := 18, attachments := [str "report.pdf"] }

/-- The content a cache hit on `attachEmail`'s row rebuilds. -/
def cachedAttachContent : EmailContent :=
  { id := str "a1", from_email := str "x@y.z", to_email := [], cc_email := [],
    subject := str "with file", body := str "see attachment", html_body := none,
    date := 18, attachments := [] }

/- ===== services/learning_service.py ===== -/

/-- A preference value in a recipient profile: a string, or a list
(Python values are untyped, and the merge step may append a list into
a list, so the list elements are again preference values). -/
inductive PrefValue where
  | strVal (v : Str)
  | listVal (vs : List PrefValue)

mutual

/-- Python `==` on preference values. -/
def prefBeq : PrefValue → PrefValue → Bool
  | .strVal a, .strVal b => a == b
  | .listVal as, .listVal bs => prefListBeq as bs
  | _, _ => false

/-- Python `==` on lists of preference values. -/
def prefListBeq : List PrefValue → List PrefValue → Bool
  | [], [] => true
  | a :: as, b :: bs => prefBeq a b && prefListBeq as bs
  | _, _ => false

end

/-- In-place dict assignment `prefs[k] = v`: replace the value at the
first binding of `k`, appending a fresh binding when absent. -/
def setKey : List (Str × PrefValue) → Str → PrefValue → List (Str × PrefValue)
  | [], k, v => [(k, v)]
  | (k1, v1) :: rest, k, v =>
    if k1 = k then (k, v) :: rest else (k1, v1) :: setKey rest k v

/-- One iteration of `_update_recipient_profile`'s merge loop: a
present list value accumulates the (not already contained) new value,
a present scalar is overwritten, an absent key is inserted. -/
def mergeStep (acc : List (Str × PrefValue)) (kv : Str × PrefValue) :
    List (Str × PrefValue) :=
  match dictGet acc kv.1 with
  | some (.listVal vs) =>
    if vs.any (fun x => prefBeq x kv.2) then acc
    else setKey acc kv.1 (.listVal (vs ++ [kv.2]))
  | some (.strVal _) => setKey acc kv.1 kv.2
  | none => acc ++ [(kv.1, kv.2)]

/-- The merge loop of `_update_recipient_profile`. -/
def mergePrefs (prefs analysis : List (Str × PrefValue)) :
    List (Str × PrefValue) :=
  analysis.foldl mergeStep prefs

/-- `LearningService._analyze_correction`: the fixed heuristic
detectors over the (original, corrected) pair, in source order. -/
def analyzeCorrection (original corrected : Str) : List (Str × PrefValue) :=
  (if containsSub (str "です・ます") corrected && containsSub (str "である") original then
    [(str "formality_level", PrefValue.strVal (str "high"))]
   else if containsSub (str "である") corrected && containsSub (str "です・ます") original then
    [(str "formality_level", PrefValue.strVal (str "low"))]
   else []) ++
  (if containsSub (str "恐れ入りますが") corrected then
    [(str "preferred_expressions",
       PrefValue.listVal [PrefValue.strVal (str "恐れ入りますが")])]
   else []) ++
  (if !containsSub (str "よろしくお願いします") corrected &&
      containsSub (str "よろしくお願いします") original then
    [(str "avoid_expressions",
       PrefValue.listVal [PrefValue.strVal (str "よろしくお願いします")])]
   else []) ++
  (if containsSub (str "(") corrected && containsSub (str "曜日") corrected then
    [(str "date_format", PrefValue.strVal (str "include_day_of_week"))]
   else [])

/-- `LearningService._update_recipient_profile`: start from the
existing profile's preferences (empty map when the profile is null)
and merge in the correction analysis. -/
def updateRecipientProfile (existing : Option (List (Str × PrefValue)))
    (original corrected : Str) : List (Str × PrefValue) :=
  mergePrefs (match existing with | some p => p | none => []) 
    (analyzeCorrection original corrected)

/- ===== theorems ===== -/

/-- C1 — for every email, whenever the LLM gateway is unavailable, the
call fails, the response is unparsable JSON, or the parsed response
does not conform to the enums, `analyze_email` returns `success=true`
with a priority in {urgent, normal, fyi} and a category in
{reply_needed, confirm_only, info}: the fallback path is total. -/
theorem analyze_email_fallback_total (email : EmailContent) (llm : LLMAnalysis)
    (h : llm = .unavailable ∨ llm = .callError ∨ llm = .badJson ∨
      ∃ p, llm = .parsed p ∧
        (priorityOfStr p.priority = none ∨ categoryOfStr p.category = none)) :
    (analyzeEmail llm email).success = true ∧
    ((analyzeEmail llm email).email_summary.priority = .urgent ∨
     (analyzeEmail llm email).email_summary.priority = .normal ∨
     (analyzeEmail llm email).email_summary.priority = .fyi) ∧
    ((analyzeEmail llm email).email_summary.category = .reply_needed ∨
     (analyzeEmail llm email).email_summary.category = .confirm_only ∨
     (analyzeEmail llm email).email_summary.category = .info) := by
  have hfb : analyzeEmail llm email = createFallbackAnalysis email := by
    rcases h with h | h | h | ⟨p, hp, hbad⟩
    · rw [h]; rfl
    · rw [h]; rfl
    · rw [h]; rfl
    · rw [hp]
      rcases hbad with hb | hb
      · simp only [analyzeEmail, hb]
      · simp only [analyzeEmail, hb]
        cases priorityOfStr p.priority <;> rfl
  rw [hfb]
  refine ⟨rfl, ?_, ?_⟩
  · cases hpr : fallbackPriority email.subject <;>
      simp [createFallbackAnalysis, hpr]
  · cases hcat : fallbackCategory email.subject <;>
      simp [createFallbackAnalysis, hcat]

/-- Witness for C1 at a concrete email with the LLM call failing. -/
theorem analyze_email_fallback_total_witness :
    (analyzeEmail .callError
      { id := str "w1", from_email := str "a@example.com", to_email := [],
        cc_email := [], subject := str "hello", body := str "hi",
        html_body := none, date := 0, attachments := [] }).success = true ∧
    ((analyzeEmail .callError
      { id := str "w1", from_email := str "a@example.com", to_email := [],
        cc_email := [], subject := str "hello", body := str "hi",
        html_body := none, date := 0, attachments := [] }).email_summary.priority = .urgent ∨
     (analyzeEmail .callError
      { id := str "w1", from_email := str "a@example.com", to_email := [],
        cc_email := [], subject := str "hello", body := str "hi",
        html_body := none, date := 0, attachments := [] }).email_summary.priority = .normal ∨
     (analyzeEmail .callError
      { id := str "w1", from_email := str "a@example.com", to_email := [],
        cc_email := [], subject := str "hello", body := str "hi",
        html_body := none, date := 0, attachments := [] }).email_summary.priority = .fyi) ∧
    ((analyzeEmail .callError
      { id := str "w1", from_email := str "a@example.com", to_email := [],
        cc_email := [], subject := str "hello", body := str "hi",
        html_body := none, date := 0, attachments := [] }).email_summary.category = .reply_needed ∨
     (analyzeEmail .callError
      { id := str "w1", from_email := str "a@example.com", to_email := [],
        cc_email := [], subject := str "hello", body := str "hi",
        html_body := none, date := 0, attachments := [] }).email_summary.category = .confirm_only ∨
     (analyzeEmail .callError
      { id := str "w1", from_email := str "a@example.com", to_email := [],
        cc_email := [], subject := str "hello", body := str "hi",
        html_body := none, date := 0, attachments := [] }).email_summary.category = .info) :=
  analyze_email_fallback_total
    { id := str "w1", from_email := str "a@example.com", to_email := [],
      cc_email := [], subject := str "hello", body := str "hi",
      html_body := none, date := 0, attachments := [] }
    .callError (Or.inr (Or.inl rfl))

/-- C8 counterexample — on the subject `至急: ご確認ください` the
fallback priority is `urgent` as claimed, but the category is NOT
`confirm_only`: the subject contains the reply keyword `確認`. -/
theorem fallback_example_category_counterexample :
    (analyzeEmail .unavailable exampleUrgentEmail).email_summary.priority = .urgent ∧
    ¬ (analyzeEmail .unavailable exampleUrgentEmail).email_summary.category = .confirm_only := by
  constructor
  · decide
  · decide

/-- C8 (amended) — for any email whose subject is
`至急: ご確認ください`, with the LLM unavailable the fallback yields
priority `urgent` (keyword `至急`) and category `reply_needed` (the
reply keyword `確認` occurs in the subject). -/
theorem fallback_example_urgent_reply_needed (email : EmailContent)
    (h : email.subject = str "至急: ご確認ください") :
    (analyzeEmail .unavailable email).email_summary.priority = .urgent ∧
    (analyzeEmail .unavailable email).email_summary.category = .reply_needed := by
  have hp : fallbackPriority email.subject = .urgent := by rw [h]; decide
  have hc : fallbackCategory email.subject = .reply_needed := by rw [h]; decide
  constructor
  · show (createFallbackAnalysis email).email_summary.priority = .urgent
    simp [createFallbackAnalysis, hp]
  · show (createFallbackAnalysis email).email_summary.category = .reply_needed
    simp [createFallbackAnalysis, hc]

/-- Witness for the amended C8 at the concrete example email. -/
theorem fallback_example_urgent_reply_needed_witness :
    (analyzeEmail .unavailable exampleUrgentEmail).email_summary.priority = .urgent ∧
    (analyzeEmail .unavailable exampleUrgentEmail).email_summary.category = .reply_needed :=
  fallback_example_urgent_reply_needed exampleUrgentEmail rfl

/-- C2 — evaluating `route_email` at a failing LLM call: the
exception propagates to the caller instead of the safe default (the
`ainvoke` call is outside the `try`); only an unparsable response is
mapped to the default decision. -/
theorem route_email_call_failure_propagates :
    routeEmail (.failure (str "connection error")) plainEmail
        = .error (str "connection error") ∧
    routeEmail (.success .unparsable) plainEmail = .ok defaultRouting := by
  exact ⟨rfl, rfl⟩

/-- The loop of `buildParallelResults` succeeds and pairs each name
with its own invocation outcome once the task list aligns with the
name list; stated with an arbitrary already-consumed task segment
`pre` for the induction. -/
theorem buildLoop_complete {V : Type} (invoke : Str → Except Str V) :
    ∀ (names : List Str) (pre : List (Except Str V)),
      buildLoop (pre ++ names.map invoke) (names.enumFrom pre.length)
        = some (names.map (fun n => (n, toEntry (invoke n)))) := by
  intro names
  induction names with
  | nil => intro pre; rfl
  | cons n ns ih =>
    intro pre
    have hget : (pre ++ (n :: ns).map invoke).get? pre.length = some (invoke n) := by
      rw [List.get?_append_right (Nat.le_refl pre.length)]
      simp
    show buildLoop (pre ++ (n :: ns).map invoke)
        ((pre.length, n) :: ns.enumFrom (pre.length + 1)) = _
    rw [buildLoop, hget]
    have hrw : pre ++ (n :: ns).map invoke = (pre ++ [invoke n]) ++ ns.map invoke := by
      simp
    have hlen : pre.length + 1 = (pre ++ [invoke n]).length := by simp
    rw [hrw, hlen, ih (pre ++ [invoke n])]
    rfl

/-- A nonempty list all of whose elements are `v` has last element
`v`. -/
theorem getLast?_of_forall_eq {α : Type} (v : α) :
    ∀ (l : List α), l ≠ [] → (∀ x ∈ l, x = v) → l.getLast? = some v := by
  intro l
  induction l with
  | nil => intro h; exact absurd rfl h
  | cons x xs ih =>
    intro _ hall
    cases xs with
    | nil => simp [List.getLast?, hall x (List.mem_singleton.mpr rfl)]
    | cons y ys =>
      rw [List.getLast?_cons_cons]
      exact ih (by simp) (fun z hz => hall z (List.mem_cons_of_mem x hz))

/-- Looking up key `a` in the canonical parallel-results list yields
`a`'s own invocation outcome (Python-dict semantics: the last binding
for a key wins, and every binding for `a` carries the same value). -/
theorem dictGet_map_invoke {V : Type} (invoke : Str → Except Str V)
    (names : List Str) (a : Str) (ha : a ∈ names) :
    dictGet (names.map (fun n => (n, toEntry (invoke n)))) a
      = some (toEntry (invoke a)) := by
  unfold dictGet
  have hmem : (a, toEntry (invoke a)) ∈
      (names.map (fun n => (n, toEntry (invoke n)))).filter
        (fun p => decide (p.1 = a)) := by
    refine List.mem_filter.mpr ⟨List.mem_map.mpr ⟨a, ha, rfl⟩, by simp⟩
  have hall : ∀ p ∈ (names.map (fun n => (n, toEntry (invoke n)))).filter
      (fun p => decide (p.1 = a)), p = (a, toEntry (invoke a)) := by
    intro p hp
    rcases List.mem_filter.mp hp with ⟨hpm, hpk⟩
    rcases List.mem_map.mp hpm with ⟨n, _, rfl⟩
    have : n = a := by simpa using hpk
    rw [this]
  have hne : (names.map (fun n => (n, toEntry (invoke n)))).filter
      (fun p => decide (p.1 = a)) ≠ [] := by
    intro hemp
    rw [hemp] at hmem
    exact List.not_mem_nil _ hmem
  rw [getLast?_of_forall_eq _ _ hne hall]
  rfl

/-- C3 — parallel coordination isolates failures: when all selected
agent names are valid and the routing asks for parallel execution, the
aggregate is returned with, under a raising agent's name, the
`{success:false, error}` entry, and under a succeeding agent's name,
that agent's result — the failure neither aborts the sibling nor
discards its result. -/
theorem coordinate_parallel_isolates_failures {V : Type}
    (invoke : Str → Except Str V) (recResp : Option FinalRecommendation)
    (routing : RoutingDecision) (a b ma : Str) (vb : V)
    (hpar : routing.parallel_execution = true)
    (hvalid : ∀ n ∈ routing.agents_to_use, n ∈ validAgents)
    (ha : a ∈ routing.agents_to_use) (hb : b ∈ routing.agents_to_use)
    (hfa : invoke a = .error ma) (hfb : invoke b = .ok vb) :
    ∃ agg, coordinateAgents invoke (.success recResp) routing = .ok agg ∧
      dictGet agg.agent_results a = some (.failureEntry ma) ∧
      dictGet agg.agent_results b = some (.resultEntry vb) := by
  have hg : gatherTasks invoke routing.agents_to_use
      = routing.agents_to_use.map invoke := by
    unfold gatherTasks
    congr 1
    refine List.filter_eq_self.mpr ?_
    intro n hn
    exact decide_eq_true (hvalid n hn)
  have hres : buildParallelResults invoke routing.agents_to_use
      = some (routing.agents_to_use.map (fun n => (n, toEntry (invoke n)))) := by
    unfold buildParallelResults
    rw [hg]
    have h0 := buildLoop_complete invoke routing.agents_to_use []
    simpa [List.enum] using h0
  have hda : dictGet (routing.agents_to_use.map (fun n => (n, toEntry (invoke n)))) a
      = some (.failureEntry ma) := by
    rw [dictGet_map_invoke invoke _ a ha, hfa]
    rfl
  have hdb : dictGet (routing.agents_to_use.map (fun n => (n, toEntry (invoke n)))) b
      = some (.resultEntry vb) := by
    rw [dictGet_map_invoke invoke _ b hb, hfb]
    rfl
  cases recResp with
  | none =>
    refine ⟨⟨routing, routing.agents_to_use.map (fun n => (n, toEntry (invoke n))),
      defaultRecommendation⟩, ?_, hda, hdb⟩
    unfold coordinateAgents
    rw [if_pos hpar, hres]
    rfl
  | some r =>
    refine ⟨⟨routing, routing.agents_to_use.map (fun n => (n, toEntry (invoke n))),
      r⟩, ?_, hda, hdb⟩
    unfold coordinateAgents
    rw [if_pos hpar, hres]
    rfl

/-- Witness for C3 at a concrete parallel run with one failing and
one succeeding agent. -/
theorem coordinate_parallel_isolates_failures_witness :
    ∃ agg, coordinateAgents wInvoke (.success none) wRouting = .ok agg ∧
      dictGet agg.agent_results (str "analyzer") = some (.failureEntry (str "boom")) ∧
      dictGet agg.agent_results (str "responder") = some (.resultEntry 7) :=
  coordinate_parallel_isolates_failures wInvoke none wRouting
    (str "analyzer") (str "responder") (str "boom") 7
    rfl (by decide) (by decide) (by decide) rfl rfl

/-- C6 — caching is idempotent per identifier: a second `cache_email`
call with the same email id leaves the table unchanged and returns the
row already present, and the first call leaves at most one new row for
that id (`max count 1`). -/
theorem cache_email_idempotent (cache : List EmailCacheRecord)
    (e1 e2 : EmailContent) (a1 a2 : Option AnalysisOutput)
    (hid : e2.id = e1.id) :
    cacheEmail (cacheEmail cache e1 a1).2 e2 a2
      = ((cacheEmail cache e1 a1).1, (cacheEmail cache e1 a1).2) ∧
    countById (cacheEmail cache e1 a1).2 e1.id
      = max (countById cache e1.id) 1 := by
  cases h : findCachedById cache e1.id with
  | some existing =>
    have hpair : cacheEmail cache e1 a1 = (existing, cache) := by
      simp only [cacheEmail, h]
    rw [hpair]
    constructor
    · simp only [cacheEmail, hid, h]
    · have hmem : existing ∈ cache.filter (fun r => decide (r.id = e1.id)) := by
        refine List.mem_filter.mpr ⟨List.mem_of_find?_eq_some h, ?_⟩
        have := List.find?_some h
        simpa using this
      have hpos : 1 ≤ countById cache e1.id := by
        have : cache.filter (fun r => decide (r.id = e1.id)) ≠ [] :=
          List.ne_nil_of_mem hmem
        have := List.length_pos.mpr this
        exact this
      exact (Nat.max_eq_left hpos).symm
  | none =>
    have hpair : cacheEmail cache e1 a1
        = (newCacheRecord e1 a1, cache ++ [newCacheRecord e1 a1]) := by
      simp only [cacheEmail, h]
    rw [hpair]
    have hfind2 : findCachedById (cache ++ [newCacheRecord e1 a1]) e2.id
        = some (newCacheRecord e1 a1) := by
      unfold findCachedById at h ⊢
      rw [hid, List.find?_append, h]
      simp [newCacheRecord]
    constructor
    · simp only [cacheEmail, hfind2]
    · have hfil : cache.filter (fun r => decide (r.id = e1.id)) = [] := by
        refine List.filter_eq_nil_iff.mpr ?_
        intro r hr
        have := List.find?_eq_none.mp h r hr
        simpa using this
      unfold countById
      rw [List.filter_append, hfil]
      simp [newCacheRecord, List.filter]

/-- Witness for C6: caching the same concrete email twice on an empty
table. -/
theorem cache_email_idempotent_witness :
    cacheEmail (cacheEmail [] plainEmail none).2 plainEmail none
      = ((cacheEmail [] plainEmail none).1, (cacheEmail [] plainEmail none).2) ∧
    countById (cacheEmail [] plainEmail none).2 plainEmail.id
      = max (countById [] plainEmail.id) 1 :=
  cache_email_idempotent [] plainEmail plainEmail none none rfl

/-- The rule loop returns `false` when no active rule matches. -/
theorem shouldFilterActive_of_no_match (e : EmailContent) :
    ∀ l : List FilterConfig, (∀ c ∈ l, emailMatchesFilter e c = false) →
      shouldFilterActive l e = false := by
  intro l
  induction l with
  | nil => intro _; rfl
  | cons c cs ih =>
    intro hall
    unfold shouldFilterActive
    rw [hall c (List.mem_cons_self c cs)]
    exact ih (fun c2 hc2 => hall c2 (List.mem_cons_of_mem c hc2))

/-- The rule loop returns the first matching rule's action. -/
theorem shouldFilterActive_first (e : EmailContent) (c : FilterConfig)
    (post : List FilterConfig) :
    ∀ pre : List FilterConfig,
      (∀ c2 ∈ pre, emailMatchesFilter e c2 = false) →
      emailMatchesFilter e c = true →
      shouldFilterActive (pre ++ c :: post) e = decide (c.action = str "exclude") := by
  intro pre
  induction pre with
  | nil =>
    intro _ hc
    show shouldFilterActive (c :: post) e = _
    unfold shouldFilterActive
    rw [hc]
    simp
  | cons p ps ih =>
    intro hall hc
    show shouldFilterActive (p :: (ps ++ c :: post)) e = _
    unfold shouldFilterActive
    rw [hall p (List.mem_cons_self p ps)]
    exact ih (fun c2 hc2 => hall c2 (List.mem_cons_of_mem p hc2)) hc

/-- C7 — first-match-wins filtering: `should_filter_email` walks the
active rules in stored order; if no active rule matches the email is
not filtered, and otherwise the first matching rule's action decides
(`exclude` ⇒ filtered out), regardless of any later matching rule. -/
theorem should_filter_email_first_match (rules : List FilterConfig)
    (e : EmailContent) :
    ((∀ c ∈ rules.filter (fun c => c.active), emailMatchesFilter e c = false) →
      should_filter_email rules e = false) ∧
    (∀ (pre : List FilterConfig) (c : FilterConfig) (post : List FilterConfig),
      rules.filter (fun c => c.active) = pre ++ c :: post →
      (∀ c2 ∈ pre, emailMatchesFilter e c2 = false) →
      emailMatchesFilter e c = true →
      should_filter_email rules e = decide (c.action = str "exclude")) := by
  constructor
  · intro hall
    unfold should_filter_email
    exact shouldFilterActive_of_no_match e _ hall
  · intro pre c post hsplit hpre hc
    unfold should_filter_email
    rw [hsplit]
    exact shouldFilterActive_first e c post pre hpre hc

/-- Witness for C7: with an excluding rule first and an including rule
second, both matching, the email is excluded (first match wins). -/
theorem should_filter_email_first_match_witness :
    should_filter_email [wRule1, wRule2] wEmail7 = true := by
  have h := (should_filter_email_first_match [wRule1, wRule2] wEmail7).2
    [] wRule1 [wRule2] (by rfl) (by simp) (by decide)
  rw [h]
  decide

/-- `cache_email` never removes a row. -/
theorem mem_cacheEmail (cache : List EmailCacheRecord) (e : EmailContent)
    (a : Option AnalysisOutput) (r : EmailCacheRecord) (hr : r ∈ cache) :
    r ∈ (cacheEmail cache e a).2 := by
  unfold cacheEmail
  cases h : findCachedById cache e.id with
  | some existing => simpa using hr
  | none => simp [List.mem_append]; exact Or.inl hr

/-- The sync loop never removes a row. -/
theorem mem_processNew (env : SyncEnv) :
    ∀ (emails : List EmailContent) (cache : List EmailCacheRecord)
      (r : EmailCacheRecord), r ∈ cache → r ∈ (processNew env emails cache).1 := by
  intro emails
  induction emails with
  | nil => intro cache r hr; exact hr
  | cons e rest ih =>
    intro cache r hr
    exact ih _ r (mem_cacheEmail cache e _ r hr)

/-- Every call the sync loop records is an analyzer run. -/
theorem processNew_calls (env : SyncEnv) :
    ∀ (emails : List EmailContent) (cache : List EmailCacheRecord)
      (c : ExtCall), c ∈ (processNew env emails cache).2 →
        ∃ i, c = ExtCall.llmAnalysis i := by
  intro emails
  induction emails with
  | nil => intro cache c hc; exact absurd hc (List.not_mem_nil c)
  | cons e rest ih =>
    intro cache c hc
    rcases List.mem_cons.mp hc with h | h
    · exact ⟨e.id, h⟩
    · exact ih _ c h

/-- On a non-empty table, `get_latest_email_date` returns the maximal
stored date. -/
theorem get_latest_email_date_max (cache : List EmailCacheRecord)
    (hne : cache ≠ []) :
    ∃ T, get_latest_email_date cache = some T ∧ ∀ r ∈ cache, r.date ≤ T := by
  have hperm := List.perm_insertionSort recDateGe cache
  have hsorted := List.sorted_insertionSort recDateGe cache
  cases hs : cache.insertionSort recDateGe with
  | nil =>
    rw [hs] at hperm
    exact absurd (hperm.symm.eq_nil) hne
  | cons x xs =>
    refine ⟨x.date, ?_, ?_⟩
    · unfold get_latest_email_date
      rw [hs]
      rfl
    · intro r hr
      have hrmem : r ∈ x :: xs := by
        rw [← hs]
        exact hperm.symm.subset hr
      rw [hs] at hsorted
      rcases List.mem_cons.mp hrmem with h | h
      · rw [h]
      · exact (List.sorted_cons.mp hsorted).1 r h

/-- C5 — differential sync: on a non-empty cache with latest stored
date `T`, the sync step uses the since-date query at `T` (never the
full-window fetch) and every email that query yields is strictly newer
than `T`; and every pre-sync cached row in the 14-day window is still
in the post-sync table's window — sync only adds rows. -/
theorem differential_sync (env : SyncEnv) (cache : List EmailCacheRecord)
    (limit : Nat) (fr : Bool) (hne : cache ≠ []) :
    ∃ T, get_latest_email_date cache = some T ∧
      (∀ r ∈ cache, r.date ≤ T) ∧
      (∀ e ∈ get_emails_since_date env.serverSince T, T < e.date) ∧
      (∀ c ∈ (get_recent_emails_cached env cache limit fr).2.2,
        c = ExtCall.mailSince T ∨ ∃ i, c = ExtCall.llmAnalysis i) ∧
      (∀ r ∈ cache.filter (fun s => decide (env.now - 14 ≤ s.date)),
        r ∈ ((get_recent_emails_cached env cache limit fr).2.1).filter
          (fun s => decide (env.now - 14 ≤ s.date))) := by
  obtain ⟨T, hT, hmax⟩ := get_latest_email_date_max cache hne
  refine ⟨T, hT, hmax, ?_, ?_, ?_⟩
  · intro e he
    have := (List.mem_filter.mp he).2
    simpa using this
  · intro c hc
    unfold get_recent_emails_cached at hc
    cases hfp : fastPathCheck env cache limit fr with
    | some cached =>
      rw [hfp] at hc
      exact absurd hc (List.not_mem_nil c)
    | none =>
      rw [hfp, hT] at hc
      rcases List.mem_cons.mp hc with h | h
      · exact Or.inl h
      · exact Or.inr (processNew_calls env _ _ c h)
  · intro r hr
    have hrc : r ∈ cache := (List.mem_filter.mp hr).1
    have hrw : (decide (env.now - 14 ≤ r.date) : Bool) = true :=
      (List.mem_filter.mp hr).2
    refine List.mem_filter.mpr ⟨?_, hrw⟩
    unfold get_recent_emails_cached
    cases hfp : fastPathCheck env cache limit fr with
    | some cached => exact hrc
    | none =>
      rw [hT]
      exact mem_processNew env _ cache r hrc

/-- Witness for C5 on a concrete non-empty cache. -/
theorem differential_sync_witness :
    ∃ T, get_latest_email_date [rec0] = some T ∧
      (∀ r ∈ [rec0], r.date ≤ T) ∧
      (∀ e ∈ get_emails_since_date env0.serverSince T, T < e.date) ∧
      (∀ c ∈ (get_recent_emails_cached env0 [rec0] 0 false).2.2,
        c = ExtCall.mailSince T ∨ ∃ i, c = ExtCall.llmAnalysis i) ∧
      (∀ r ∈ List.filter (fun s => decide (env0.now - 14 ≤ s.date)) [rec0],
        r ∈ ((get_recent_emails_cached env0 [rec0] 0 false).2.1).filter
          (fun s => decide (env0.now - 14 ≤ s.date))) :=
  differential_sync env0 [rec0] 0 false (by decide)

/-- C4 counterexample — at `limit = 0` the claim's hypothesis holds
vacuously (`min 0 10 = 0` cached rows suffice, and the window even
holds a row), `force_refresh` is false, yet the call performs a mail
fetch: the code's fast-path test also requires the limited query
result to be non-empty, which `LIMIT 0` never is. -/
theorem cache_hit_fast_path_counterexample :
    min 0 10 ≤ (List.filter (fun r => decide (env0.now - 14 ≤ r.date)) [rec0]).length ∧
    (get_recent_emails_cached env0 [rec0] 0 false).2.2 ≠ [] := by
  constructor
  · decide
  · decide

/-- The fast-path test succeeds when `limit ≥ 1` and the 14-day
window holds at least `min(limit, 10)` rows. -/
theorem fastPathCheck_some (env : SyncEnv) (cache : List EmailCacheRecord)
    (limit : Nat) (h1 : 1 ≤ limit)
    (h2 : min limit 10 ≤
      (cache.filter (fun r => decide (env.now - 14 ≤ r.date))).length) :
    fastPathCheck env cache limit false
      = some (get_cached_emails cache limit 14 env.now) := by
  have hlen : (get_cached_emails cache limit 14 env.now).length
      = min limit (cache.filter (fun r => decide (env.now - 14 ≤ r.date))).length := by
    unfold get_cached_emails
    rw [List.length_take]
    congr 1
    exact (List.perm_insertionSort recDateGe _).length_eq
  have hmin : min limit 10 ≤ (get_cached_emails cache limit 14 env.now).length := by
    rw [hlen]
    exact Nat.le_min.mpr ⟨Nat.min_le_left limit 10, h2⟩
  have hpos : 1 ≤ (get_cached_emails cache limit 14 env.now).length := by
    calc 1 ≤ min limit 10 := Nat.le_min.mpr ⟨h1, by omega⟩
    _ ≤ _ := hmin
  have hne : get_cached_emails cache limit 14 env.now ≠ [] := by
    intro hememp
    rw [hememp] at hpos
    exact absurd hpos (by decide)
  unfold fastPathCheck
  rw [if_neg (by simp), if_neg hne, if_pos hmin]

/-- C4 (amended) — cache-hit fast path for `limit ≥ 1`: with
`force_refresh` false and at least `min(limit, 10)` cached rows inside
the 14-day window, the call returns the summaries converted from the
cached window, leaves the table unchanged, and records no external
call at all (no mail fetch, no analyzer/LLM run). -/
theorem cache_hit_fast_path (env : SyncEnv) (cache : List EmailCacheRecord)
    (limit : Nat) (h1 : 1 ≤ limit)
    (h2 : min limit 10 ≤
      (cache.filter (fun r => decide (env.now - 14 ≤ r.date))).length) :
    get_recent_emails_cached env cache limit false
      = (convertCachedToSummaries (get_cached_emails cache limit 14 env.now),
          cache, []) := by
  unfold get_recent_emails_cached
  rw [fastPathCheck_some env cache limit h1 h2]

/-- Witness for the amended C4 at `limit = 1` on a one-row window. -/
theorem cache_hit_fast_path_witness :
    get_recent_emails_cached env0 [rec0] 1 false
      = (convertCachedToSummaries (get_cached_emails [rec0] 1 14 env0.now),
          [rec0], []) :=
  cache_hit_fast_path env0 [rec0] 1 (by decide) (by decide)

/-- C10 — a cache hit of `get_email_by_id_cached` always returns an
`EmailContent` with empty recipient lists, no attachments and no HTML
body (those fields are not persisted); consequently caching an email
with recipients/attachments and re-reading it by id yields content
different from the live original. -/
theorem cached_content_drops_fields :
    (∀ (cache : List EmailCacheRecord) (live : Str → Option EmailContent)
      (emailId : Str) (c : EmailContent),
      get_email_content_by_id cache emailId = some c →
      (get_email_by_id_cached cache live emailId).1 = some c ∧
      c.to_email = [] ∧ c.cc_email = [] ∧ c.attachments = [] ∧
      c.html_body = none) ∧
    (get_email_by_id_cached (cacheEmail [] attachEmail none).2
      (fun _ => some attachEmail) attachEmail.id).1 ≠ some attachEmail := by
  constructor
  · intro cache live emailId c hc
    constructor
    · unfold get_email_by_id_cached
      rw [hc]
    · rcases Option.map_eq_some'.mp hc with ⟨r, _, hr⟩
      rw [← hr]
      exact ⟨rfl, rfl, rfl, rfl⟩
  · decide

/-- Witness for C10 on the concrete cached row of `attachEmail`. -/
theorem cached_content_drops_fields_witness :
    (get_email_by_id_cached (cacheEmail [] attachEmail none).2
        (fun _ => some attachEmail) attachEmail.id).1 = some cachedAttachContent ∧
    cachedAttachContent.to_email = [] ∧ cachedAttachContent.cc_email = [] ∧
    cachedAttachContent.attachments = [] ∧ cachedAttachContent.html_body = none :=
  cached_content_drops_fields.1 (cacheEmail [] attachEmail none).2
    (fun _ => some attachEmail) attachEmail.id cachedAttachContent (by decide)

/-- C9 counterexample — the corrected text contains the
high-formality marker `です・ます` while the original does not, yet the
profile learned from a null profile has NO `formality_level` entry:
the detector additionally requires the low-formality marker `である`
in the original text. -/
theorem formality_high_counterexample :
    containsSub (str "です・ます") (str "今後はです・ます調でお願いします") = true ∧
    containsSub (str "です・ます") (str "了解") = false ∧
    (dictGet (updateRecipientProfile none (str "了解")
        (str "今後はです・ます調でお願いします")) (str "formality_level")).isNone = true := by
  exact ⟨rfl, rfl, rfl⟩

/-- `setKey` at one key leaves the filter at a different key alone. -/
theorem filter_setKey_ne (k k1 : Str) (v1 : PrefValue) (hk : k1 ≠ k) :
    ∀ acc : List (Str × PrefValue),
      (setKey acc k1 v1).filter (fun p => decide (p.1 = k))
        = acc.filter (fun p => decide (p.1 = k)) := by
  intro acc
  induction acc with
  | nil => simp [setKey, List.filter, hk]
  | cons a rest ih =>
    by_cases h : a.1 = k1
    · have : setKey (a :: rest) k1 v1 = (k1, v1) :: rest := by
        cases a with
        | mk a1 a2 =>
          simp only [setKey]
          rw [if_pos h]
      rw [this]
      cases a with
      | mk a1 a2 =>
        simp only [List.filter]
        rw [show (decide (k1 = k)) = false from decide_eq_false hk,
          show (decide (a1 = k)) = false from decide_eq_false (by
            intro hak
            exact hk (h ▸ hak))]
    · have : setKey (a :: rest) k1 v1 = a :: setKey rest k1 v1 := by
        cases a with
        | mk a1 a2 =>
          simp only [setKey]
          rw [if_neg h]
      rw [this]
      cases a with
      | mk a1 a2 =>
        simp only [List.filter]
        cases hd : decide (a1 = k) with
        | true => rw [ih]
        | false => exact ih

/-- `dictGet` at one key is unchanged by `setKey` at another key. -/
theorem dictGet_setKey_ne (acc : List (Str × PrefValue)) (k k1 : Str)
    (v1 : PrefValue) (hk : k1 ≠ k) :
    dictGet (setKey acc k1 v1) k = dictGet acc k := by
  unfold dictGet
  rw [filter_setKey_ne k k1 v1 hk acc]

/-- `dictGet` at one key is unchanged by appending a binding for
another key. -/
theorem dictGet_append_ne (acc : List (Str × PrefValue)) (k k1 : Str)
    (v1 : PrefValue) (hk : k1 ≠ k) :
    dictGet (acc ++ [(k1, v1)]) k = dictGet acc k := by
  unfold dictGet
  rw [List.filter_append]
  simp [List.filter, hk]

/-- The merge loop preserves the value at a key none of the merged
entries touches. -/
theorem mergePrefs_preserves (k : Str) (v : PrefValue) :
    ∀ (analysis acc : List (Str × PrefValue)),
      dictGet acc k = some v → (∀ kv ∈ analysis, kv.1 ≠ k) →
      dictGet (mergePrefs acc analysis) k = some v := by
  intro analysis
  induction analysis with
  | nil => intro acc hacc _; exact hacc
  | cons kv rest ih =>
    intro acc hacc hall
    have hk : kv.1 ≠ k := hall kv (List.mem_cons_self kv rest)
    have hstep : dictGet (mergeStep acc kv) k = some v := by
      unfold mergeStep
      cases hgot : dictGet acc kv.1 with
      | none =>
        show dictGet (acc ++ [(kv.1, kv.2)]) k = some v
        rw [dictGet_append_ne acc k kv.1 kv.2 hk]
        exact hacc
      | some pv =>
        cases pv with
        | strVal s =>
          show dictGet (setKey acc kv.1 kv.2) k = some v
          rw [dictGet_setKey_ne acc k kv.1 kv.2 hk]
          exact hacc
        | listVal vs =>
          show dictGet (if (vs.any fun x => prefBeq x kv.2) = true then acc
              else setKey acc kv.1 (PrefValue.listVal (vs ++ [kv.2]))) k = some v
          by_cases hany : (vs.any fun x => prefBeq x kv.2) = true
          · rw [if_pos hany]
            exact hacc
          · rw [if_neg hany, dictGet_setKey_ne acc k kv.1 _ hk]
            exact hacc
    exact ih (mergeStep acc kv) hstep
      (fun kv2 h2 => hall kv2 (List.mem_cons_of_mem kv h2))

/-- Membership in a conditional singleton pins the element down. -/
theorem mem_ite_singleton (cond : Bool) (entry kv : Str × PrefValue)
    (h : kv ∈ (if cond = true then [entry] else [])) : kv = entry := by
  cases cond with
  | true => simpa using h
  | false => simp at h

/-- C9 (amended) — starting from a null recipient profile, after one
correction whose corrected text contains the high-formality marker
`です・ます` and whose original text contains the low-formality marker
`である`, the learned preferences map `formality_level` to `high`. -/
theorem formality_high_learned (original corrected : Str)
    (hc : containsSub (str "です・ます") corrected = true)
    (ho : containsSub (str "である") original = true) :
    dictGet (updateRecipientProfile none original corrected)
      (str "formality_level") = some (PrefValue.strVal (str "high")) := by
  unfold updateRecipientProfile analyzeCorrection
  rw [hc, ho]
  refine mergePrefs_preserves (str "formality_level") (PrefValue.strVal (str "high"))
    (((if containsSub (str "恐れ入りますが") corrected = true then
         [(str "preferred_expressions",
            PrefValue.listVal [PrefValue.strVal (str "恐れ入りますが")])]
       else []) ++
      (if (!containsSub (str "よろしくお願いします") corrected &&
           containsSub (str "よろしくお願いします") original) = true then
         [(str "avoid_expressions",
            PrefValue.listVal [PrefValue.strVal (str "よろしくお願いします")])]
       else [])) ++
     (if (containsSub (str "(") corrected && containsSub (str "曜日") corrected) = true then
        [(str "date_format", PrefValue.strVal (str "include_day_of_week"))]
      else []))
    [(str "formality_level", PrefValue.strVal (str "high"))] rfl ?_
  intro kv hkv
  rcases List.mem_append.mp hkv with h | h
  · rcases List.mem_append.mp h with h2 | h2
    · rw [mem_ite_singleton _ _ _ h2]
      decide
    · rw [mem_ite_singleton _ _ _ h2]
      decide
  · rw [mem_ite_singleton _ _ _ h]
    decide

/-- Witness for the amended C9 on a concrete correction pair. -/
theorem formality_high_learned_witness :
    dictGet (updateRecipientProfile none (str "報告である")
        (str "報告です・ます調です")) (str "formality_level")
      = some (PrefValue.strVal (str "high")) :=
  formality_high_learned (str "報告である") (str "報告です・ます調です") rfl rfl
